import Mathlib

/-!
Shallow embedding of `scripts/harvest_template.py`: a bot that harvests
template parameter values from wiki pages and turns them into structured
claims on the corresponding knowledge-base entity.  External collaborators
(page generators, knowledge-base reads, title normalization, the claim
write transport) are modelled as an explicit environment of pure functions,
following the boundaries the specification declares.
-/

namespace HarvestTemplate

/-- Whitespace characters removed by the Python str.strip method (ASCII
subset: space, tab, newline, carriage return, vertical tab, form feed). -/
def isPySpace (c : Char) : Bool :=
  c == ' ' || c == '\t' || c == '\n' || c == '\r' || c == Char.ofNat 11 || c == Char.ofNat 12

/-- Drop the trailing characters of a list that satisfy the predicate. -/
def dropTrailing (p : Char → Bool) (l : List Char) : List Char :=
  (l.reverse.dropWhile p).reverse

/-- Python str.strip with no argument: remove leading and trailing whitespace. -/
def pyStrip (s : String) : String :=
  String.mk (dropTrailing isPySpace (s.data.dropWhile isPySpace))

/-- Characters that cannot occur in a wiki link title, per the character
class of the link pattern: right bracket, pipe, left bracket, angle
brackets and curly braces. -/
def badTitleChar (c : Char) : Bool :=
  c == ']' || c == '|' || c == '[' || c == '<' || c == '>' ||
    c == Char.ofNat 123 || c == Char.ofNat 125

/-- Character admissible inside a wiki link title. -/
def goodTitleChar (c : Char) : Bool :=
  !(badTitleChar c)

/-- Whether a closing pair of right brackets occurs further on, with no
newline before it (the non-greedy tail of the link pattern). -/
def hasCloseNoNewline : List Char → Bool
  | ']' :: ']' :: _ => true
  | c :: rest => if c == '\n' then false else hasCloseNoNewline rest
  | [] => false

/-- Modelled from the spec: the wiki link markup matcher used at the
entity-reference branch (the library-level link pattern, whose source file
is not part of this tree).  The value contains wiki link markup when a
substring of the form two left brackets, a link target free of
bracket/pipe/angle/brace characters, an optional pipe section, and two
right brackets occurs; the first such target is extracted.  This function
attempts a match at the head of the character list. -/
def tryLinkMatch : List Char → Option (List Char)
  | c1 :: c2 :: rest =>
    if c1 == '[' && c2 == '[' then
      let title := rest.takeWhile goodTitleChar
      match rest.dropWhile goodTitleChar with
      | ']' :: ']' :: _ => some title
      | '|' :: rest2 => if hasCloseNoNewline rest2 then some title else none
      | _ => none
    else none
  | _ => none

/-- Scan left to right for the first position at which the link pattern
matches, returning the first link target found. -/
def linkSearchAux : List Char → Option (List Char)
  | [] => none
  | c :: rest =>
    match tryLinkMatch (c :: rest) with
    | some t => some t
    | none => linkSearchAux rest

/-- Search a string for the first wiki link markup occurrence and return
the link target inside it, if any. -/
def linkRegexSearch (s : String) : Option String :=
  (linkSearchAux s.data).map String.mk

/-- Lines 174-179 of treat: try to extract a valid page from the value.
When the value contains link markup the first link target is used,
otherwise the whole value is treated as a literal page title. -/
def extractLinkText (value : String) : String :=
  match linkRegexSearch value with
  | some t => t
  | none => value

/-- Characters that may not appear inside the URL part of an external
link: right bracket, whitespace, angle brackets and the double quote. -/
def notInsideChar (c : Char) : Bool :=
  c == ']' || isPySpace c || c == '<' || c == '>' || c == Char.ofNat 34

/-- Characters on which the URL part of an external link may not end. -/
def notAtEndChar (c : Char) : Bool :=
  notInsideChar c || c == '.' || c == ':' || c == ';' || c == ',' ||
    c == '|' || c == ')'

/-- ASCII apostrophe, written by code point. -/
def apostropheChar : Char := Char.ofNat 39

/-- Lookahead of the first external-link alternative: a run of
not-at-end characters followed by two apostrophes. -/
def lookaheadOk (cs : List Char) : Bool :=
  match cs.dropWhile notAtEndChar with
  | c1 :: c2 :: _ => c1 == apostropheChar && c2 == apostropheChar
  | _ => false

/-- Non-greedy body search of the first external-link alternative: the
shortest body of inside-admissible characters whose final character is
end-admissible and whose continuation satisfies the lookahead. -/
def alt1Search (acc : List Char) : List Char → Option (List Char)
  | c :: rest =>
    if !(notAtEndChar c) && lookaheadOk rest then some ((c :: acc).reverse)
    else if !(notInsideChar c) then alt1Search (c :: acc) rest
    else none
  | [] => none

/-- Match the URL scheme prefix, trying the secure variant first as the
greedy optional letter does. -/
def stripScheme : List Char → Option (List Char × List Char)
  | 'h' :: 't' :: 't' :: 'p' :: 's' :: ':' :: '/' :: '/' :: rest =>
    some (['h', 't', 't', 'p', 's', ':', '/', '/'], rest)
  | 'h' :: 't' :: 't' :: 'p' :: ':' :: '/' :: '/' :: rest =>
    some (['h', 't', 't', 'p', ':', '/', '/'], rest)
  | _ => none

/-- Greedy body of the second external-link alternative: the maximal run
of inside-admissible characters, trimmed of trailing characters on which
a URL may not end; fails when nothing remains. -/
def alt2Body (rest : List Char) : Option (List Char) :=
  let run := rest.takeWhile (fun c => !(notInsideChar c))
  let body := dropTrailing notAtEndChar run
  if body.isEmpty then none else some body

/-- Attempt to match the external-link pattern at the head of the list,
returning the full URL text on success. -/
def urlMatchAt (cs : List Char) : Option (List Char) :=
  match stripScheme cs with
  | none => none
  | some (scheme, rest) =>
    match alt1Search [] rest with
    | some body => some (scheme ++ body)
    | none =>
      match alt2Body rest with
      | some body => some (scheme ++ body)
      | none => none

/-- Scan left to right for the first external-link match. -/
def urlSearchAux : List Char → Option (List Char)
  | [] => none
  | c :: rest =>
    match urlMatchAt (c :: rest) with
    | some u => some u
    | none => urlSearchAux rest

/-- Modelled from the spec: the compiled external-link pattern stored in
self.linkR at line 83 (its compilation lives in a library file that is
not part of this tree).  It recognizes the first occurrence of wiki-style
external-link markup, an http or https URL, and yields the URL substring;
a value without such markup yields no match. -/
def linkRSearch (s : String) : Option String :=
  (urlSearchAux s.data).map String.mk

/-- TargetEntity: the knowledge-base item of a page, with its identifier
and the property identifiers of its existing claims. -/
structure Item where
  title : String
  claims : List String
deriving DecidableEq

/-- A source page: its wiki site, its title, and the raw extracted
template invocations (template name with a parameter map). -/
structure Page where
  site : String
  title : String
  rawTemplates : List (String × List (String × String))
deriving DecidableEq

/-- Environment of external collaborators: template synonym discovery,
template title normalization, property datatype lookup, page existence,
single redirect resolution, entity lookup by page, entity existence, and
file redirect/existence on a media repository keyed by site. -/
structure Env where
  templateSynonyms : String → List String
  normalizeTemplate : String → Option String
  claimType : String → String
  pageExists : String → Bool
  redirectTarget : String → Option String
  itemFromPage : String → Option String
  itemExists : String → Bool
  fileRedirect : String → String → Option String
  fileExists : String → String → Bool

/-- Typed value payload of a proposed claim. -/
inductive ClaimValue where
  | entity (itemId : String)
  | plainStr (s : String)
  | urlV (u : String)
  | media (fileTitle : String)
deriving DecidableEq

/-- Outcome of the per-kind value dispatch for one field. -/
inductive ParseOutcome where
  | written (v : ClaimValue)
  | skipLinkTarget
  | skipNoUrl
  | skipFileMissing
  | skipUnsupported (datatype : String)
deriving DecidableEq

/-- Outcome of processing one template field. -/
inductive FieldOutcome where
  | dropped
  | unmapped
  | alreadyExists (pid : String)
  | processed (pid : String) (r : ParseOutcome)
deriving DecidableEq

/-- Outcome of one template invocation on a page. -/
inductive TemplateResult where
  | invalidTitle (raw : String)
  | skippedTemplate (name : String)
  | matchedTemplate (name : String) (fields : List FieldOutcome)
deriving DecidableEq

/-- Outcome of treat for one page and item. -/
inductive TreatResult where
  | interrupted
  | allClaimsPresent
  | processed (results : List TemplateResult)
deriving DecidableEq

/-- Python dict lookup over an association list built by repeated
insertion: the last binding of a key wins. -/
def dictFind (l : List (String × String)) (k : String) : Option String :=
  l.foldl (fun acc p => if p.1 == k then some p.2 else acc) none

/-- Python dict insertion: overwrite the value in place when the key is
present, append otherwise. -/
def dictInsert (l : List (String × String)) (kv : String × String) : List (String × String) :=
  if l.any (fun p => p.1 == kv.1) then
    l.map (fun p => if p.1 == kv.1 then (p.1, kv.2) else p)
  else l ++ [kv]

/-- Canonical dict built from a list of bindings, in insertion order. -/
def toDict (l : List (String × String)) : List (String × String) :=
  l.foldl dictInsert []

/-- Values of the field mapping viewed as a Python dict, as consumed by
the whole-entity subset check. -/
def fieldValues (l : List (String × String)) : List String :=
  (toDict l).map Prod.snd

/-- Python str.replace of every underscore by a space (line 78). -/
def replaceUnderscores (s : String) : String :=
  String.mk (s.data.map (fun c => if c == '_' then ' ' else c))

/-- State of a constructed HarvestRobot that the decision core reads. -/
structure HarvestRobot where
  optAlways : Bool
  templateTitle : String
  templateTitles : List String
  fields : List (String × String)
deriving DecidableEq

/-- Constructor of HarvestRobot (lines 64-83): the always option is set
to True before base initialization, the template title has underscores
replaced by spaces, and the synonym titles are fetched. -/
def mkHarvestRobot (env : Env) (templateTitle : String)
    (fields : List (String × String)) : HarvestRobot :=
  let t := replaceUnderscores templateTitle
  { optAlways := true
    templateTitle := t
    templateTitles := env.templateSynonyms t
    fields := fields }

/-- Follow one redirect hop: the redirect target when the page is a
redirect, the page itself otherwise. -/
def resolveFinal (env : Env) (title : String) : String :=
  match env.redirectTarget title with
  | some t => t
  | none => title

/-- Lines 103-129, the template link target helper: resolve the link
text to a page, require existence, follow one redirect hop, look up the
knowledge-base item of the final page, require it to exist, and reject a
self link; every failure yields no target. -/
def templateLinkTarget (env : Env) (item : Item) (linkText : String) : Option String :=
  if !(env.pageExists linkText) then none
  else
    match env.itemFromPage (resolveFinal env linkText) with
    | none => none
    | some lid =>
      if !(env.itemExists lid) then none
      else if lid == item.title then none
      else some lid

/-- Lines 173-214, the per-kind value dispatch: entity reference, plain
string or external identifier, URL, media reference on the fixed commons
repository, and the unconditional skip of any other declared kind.  The
page argument is in scope in the source loop but the dispatch never reads
it. -/
def parseValue (env : Env) (item : Item) (_page : Page) (pid value : String) : ParseOutcome :=
  let dt := env.claimType pid
  if dt == "wikibase-item" then
    match templateLinkTarget env item (extractLinkText value) with
    | none => ParseOutcome.skipLinkTarget
    | some lid => ParseOutcome.written (ClaimValue.entity lid)
  else if dt == "string" || dt == "external-id" then
    ParseOutcome.written (ClaimValue.plainStr (pyStrip value))
  else if dt == "url" then
    match linkRSearch value with
    | none => ParseOutcome.skipNoUrl
    | some u => ParseOutcome.written (ClaimValue.urlV u)
  else if dt == "commonsMedia" then
    let final :=
      match env.fileRedirect "commons" value with
      | some t => t
      | none => value
    if env.fileExists "commons" final then ParseOutcome.written (ClaimValue.media final)
    else ParseOutcome.skipFileMissing
  else ParseOutcome.skipUnsupported dt

/-- Lines 155-214, one field of a matched invocation: strip both sides,
drop empty pairs, route through the field mapping, apply the duplicate
guard before any dispatch, and otherwise dispatch on the declared kind. -/
def processField (env : Env) (robot : HarvestRobot) (item : Item) (page : Page)
    (field value : String) : FieldOutcome :=
  let f := pyStrip field
  let v := pyStrip value
  if f.data.isEmpty || v.data.isEmpty then FieldOutcome.dropped
  else
    match dictFind robot.fields f with
    | none => FieldOutcome.unmapped
    | some pid =>
      if item.claims.contains pid then FieldOutcome.alreadyExists pid
      else FieldOutcome.processed pid (parseValue env item page pid v)

/-- Lines 143-214, the body of the template loop: normalize the raw
invocation name (an unparseable name is logged and the invocation is
skipped), filter against the synonym titles, and process the fields of a
matched invocation in order. -/
def treatTemplate (env : Env) (robot : HarvestRobot) (item : Item) (page : Page)
    (tf : String × List (String × String)) : TemplateResult :=
  match env.normalizeTemplate tf.1 with
  | none => TemplateResult.invalidTitle tf.1
  | some t =>
    if robot.templateTitles.contains t then
      TemplateResult.matchedTemplate t
        (tf.2.map (fun fv => processField env robot item page fv.1 fv.2))
    else TemplateResult.skippedTemplate t

/-- Lines 131-217, treat of one page and item: the stop flag is read
once at the very start; then the whole page is skipped when every
configured property already has a claim; otherwise each raw invocation
runs through the template loop body. -/
def treat (env : Env) (robot : HarvestRobot) (willstop : Bool) (page : Page)
    (item : Item) : TreatResult :=
  if willstop then TreatResult.interrupted
  else if (fieldValues robot.fields).all (fun pid => item.claims.contains pid) then
    TreatResult.allClaimsPresent
  else
    TreatResult.processed (page.rawTemplates.map (treatTemplate env robot item page))

/-- The claim handed to the Claim Writer by one field, if any. -/
def fieldClaim : FieldOutcome → Option (String × ClaimValue)
  | FieldOutcome.processed pid (ParseOutcome.written v) => some (pid, v)
  | _ => none

/-- Claims written by one template invocation. -/
def templateClaims : TemplateResult → List (String × ClaimValue)
  | TemplateResult.matchedTemplate _ fs => fs.filterMap fieldClaim
  | _ => []

/-- Concatenation of the claims of a list of invocation results. -/
def concatClaims (rs : List TemplateResult) : List (String × ClaimValue) :=
  rs.foldr (fun r acc => templateClaims r ++ acc) []

/-- All claims a treat run hands to the Claim Writer. -/
def writtenClaims : TreatResult → List (String × ClaimValue)
  | TreatResult.processed rs => concatClaims rs
  | _ => []

/-- A commit request as received by the Claim Writer: property, typed
value, the originating site (line 217 passes page.site), and the always
option of the bot. -/
structure Commit where
  pid : String
  value : ClaimValue
  sourceSite : String
  always : Bool
deriving DecidableEq

/-- The commit requests issued by one treat run. -/
def treatCommits (env : Env) (robot : HarvestRobot) (willstop : Bool) (page : Page)
    (item : Item) : List Commit :=
  (writtenClaims (treat env robot willstop page item)).map
    (fun pv => { pid := pv.1, value := pv.2, sourceSite := page.site, always := robot.optAlways })

/-- Modelled from the spec: the Claim Writer collaborator owns the user
confirmation policy, and a commit carrying the always option is performed
non-interactively, with no per-edit confirmation prompt. -/
def writerPrompts (always : Bool) : Bool :=
  !always

/-- State of the sequential run loop around treat: the cooperative stop
flag, whether an abort signal was raised, whether a page body is being
processed, and how many pages completed. -/
structure RunState where
  willstop : Bool
  aborted : Bool
  inPage : Bool
  completedPages : Nat
deriving DecidableEq

/-- Atomic events of the run: a cancellation signal, the start of treat
for the next page, and the completion of the current page body. -/
inductive RunEvent where
  | sigint
  | beginPage
  | endPage
deriving DecidableEq

/-- Modelled from the spec for the page loop, with the two source pieces
embedded directly: a signal event runs the handler of lines 42-49 (first
request sets the flag, a second request raises the abort), and a begin
event runs the check of lines 133-134 (raise when the flag is set, else
enter the page body); completing a page body never reads the flag. -/
def runStep (s : RunState) (e : RunEvent) : RunState :=
  if s.aborted then s
  else
    match e with
    | RunEvent.sigint =>
      if s.willstop then { s with aborted := true }
      else { s with willstop := true }
    | RunEvent.beginPage =>
      if s.willstop then { s with aborted := true }
      else { s with inPage := true }
    | RunEvent.endPage =>
      if s.inPage then { s with inPage := false, completedPages := s.completedPages + 1 }
      else s

/-- Outcome of the configuration phase of main. -/
inductive MainOutcome where
  | missingTemplate
  | fatalOddFieldCount
  | run (fields : List (String × String))
deriving DecidableEq

/-- Consecutive pairing of the field argument list (lines 258-259). -/
def pairUp : List String → List (String × String)
  | [] => []
  | [_] => []
  | a :: b :: rest => (a, b) :: pairUp rest

/-- Lines 249-266 of main, after argument classification: a missing
template is an error, an odd field argument count raises the fatal
ValueError, and only the run constructor reaches generator construction
and the bot run. -/
def mainModel (templateTitle : String) (fieldArgs : List String) : MainOutcome :=
  if templateTitle.data.isEmpty then MainOutcome.missingTemplate
  else if fieldArgs.length % 2 == 1 then MainOutcome.fatalOddFieldCount
  else MainOutcome.run (pairUp fieldArgs)

/-- Fixture environment for concrete evaluations. -/
def envW : Env where
  templateSynonyms := fun t => [t]
  normalizeTemplate := fun t => some t
  claimType := fun pid =>
    if pid == "P1" then "wikibase-item"
    else if pid == "P2" then "url"
    else if pid == "P3" then "commonsMedia"
    else if pid == "P4" then "time"
    else "string"
  pageExists := fun _ => true
  redirectTarget := fun _ => none
  itemFromPage := fun t => if t == "Selfpage" then some "Q1" else some "Q2"
  itemExists := fun _ => true
  fileRedirect := fun _ _ => none
  fileExists := fun _ _ => true

/-- Fixture page with no template invocations. -/
def pageW : Page :=
  { site := "en", title := "Page", rawTemplates := [] }

/-- Fixture page with one invocation of template T carrying one field. -/
def pageT : Page :=
  { site := "en", title := "Page", rawTemplates := [("T", [("f", "v")])] }

/-! Helper lemmas. -/

theorem processField_processed_not_claimed (env : Env) (robot : HarvestRobot)
    (item : Item) (page : Page) (f v pid : String) (r : ParseOutcome)
    (h : processField env robot item page f v = FieldOutcome.processed pid r) :
    item.claims.contains pid = false := by
  simp only [processField] at h
  split at h
  · exact absurd h (by simp)
  · split at h
    · exact absurd h (by simp)
    · split at h
      · exact absurd h (by simp)
      · rename_i hcon
        injection h with h1 h2
        subst h1
        simpa using hcon

theorem fieldClaim_eq_some (fo : FieldOutcome) (pv : String × ClaimValue)
    (h : fieldClaim fo = some pv) :
    fo = FieldOutcome.processed pv.1 (ParseOutcome.written pv.2) := by
  cases fo with
  | dropped => simp [fieldClaim] at h
  | unmapped => simp [fieldClaim] at h
  | alreadyExists pid => simp [fieldClaim] at h
  | processed pid r =>
    cases r with
    | written v =>
      simp only [fieldClaim, Option.some.injEq] at h
      rw [← h]
    | skipLinkTarget => simp [fieldClaim] at h
    | skipNoUrl => simp [fieldClaim] at h
    | skipFileMissing => simp [fieldClaim] at h
    | skipUnsupported d => simp [fieldClaim] at h

theorem mem_concatClaims (pv : String × ClaimValue) (rs : List TemplateResult) :
    pv ∈ concatClaims rs ↔ ∃ r ∈ rs, pv ∈ templateClaims r := by
  induction rs with
  | nil => simp [concatClaims]
  | cons r rest ih =>
    simp only [concatClaims, List.foldr_cons] at ih ⊢
    simp [List.mem_append, ih]

theorem treat_false_eq (env : Env) (robot : HarvestRobot) (page : Page) (item : Item) :
    treat env robot false page item =
      if (fieldValues robot.fields).all (fun pid => item.claims.contains pid) then
        TreatResult.allClaimsPresent
      else
        TreatResult.processed (page.rawTemplates.map (treatTemplate env robot item page)) := rfl

theorem writtenClaims_pid_not_claimed (env : Env) (robot : HarvestRobot)
    (ws : Bool) (page : Page) (item : Item) :
    ∀ pv ∈ writtenClaims (treat env robot ws page item),
      item.claims.contains pv.1 = false := by
  intro pv hpv
  cases ws with
  | true => simp [treat, writtenClaims] at hpv
  | false =>
    rw [treat_false_eq] at hpv
    by_cases hall : (fieldValues robot.fields).all (fun pid => item.claims.contains pid) = true
    · rw [if_pos hall] at hpv
      simp [writtenClaims] at hpv
    · rw [if_neg hall] at hpv
      simp only [writtenClaims] at hpv
      rw [mem_concatClaims] at hpv
      obtain ⟨r, hr, hpvr⟩ := hpv
      obtain ⟨tf, htf, rfl⟩ := List.mem_map.1 hr
      simp only [treatTemplate] at hpvr
      split at hpvr
      · simp [templateClaims] at hpvr
      · split at hpvr
        · simp only [templateClaims] at hpvr
          obtain ⟨fo, hfo, hfc⟩ := List.mem_filterMap.1 hpvr
          obtain ⟨fv, hfv, rfl⟩ := List.mem_map.1 hfo
          have hshape := fieldClaim_eq_some _ _ hfc
          exact processField_processed_not_claimed env robot item page fv.1 fv.2 pv.1 _ hshape
        · simp [templateClaims] at hpvr

/-! Claim theorems. -/

/-- C1: whole-entity short-circuit.  When the existing claim identifiers
of the entity form a superset of the configured property identifiers
(the values of the field mapping), treat stops at the page-level check:
no template invocation or field is examined and no claim is handed to
the Claim Writer, for every state of the stop flag. -/
theorem treat_skips_page_when_all_properties_claimed
    (env : Env) (robot : HarvestRobot) (page : Page) (item : Item)
    (hall : (fieldValues robot.fields).all (fun pid => item.claims.contains pid) = true) :
    treat env robot false page item = TreatResult.allClaimsPresent ∧
    ∀ ws : Bool, writtenClaims (treat env robot ws page item) = [] ∧
      treatCommits env robot ws page item = [] := by
  have h1 : treat env robot false page item = TreatResult.allClaimsPresent := by
    rw [treat_false_eq, if_pos hall]
  refine ⟨h1, ?_⟩
  intro ws
  cases ws with
  | false =>
    rw [treatCommits, h1]
    exact ⟨rfl, rfl⟩
  | true =>
    rw [treatCommits, show treat env robot true page item = TreatResult.interrupted from rfl]
    exact ⟨rfl, rfl⟩

/-- Witness for C1 at a concrete page and item. -/
theorem c1_witness :
    treat envW ⟨true, "T", ["T"], [("a", "P5")]⟩ false pageW ⟨"Q9", ["P5"]⟩ =
      TreatResult.allClaimsPresent ∧
    treatCommits envW ⟨true, "T", ["T"], [("a", "P5")]⟩ false pageW ⟨"Q9", ["P5"]⟩ = [] := by
  have h := treat_skips_page_when_all_properties_claimed envW
    ⟨true, "T", ["T"], [("a", "P5")]⟩ pageW ⟨"Q9", ["P5"]⟩ (by decide)
  exact ⟨h.1, (h.2 false).2⟩

/-- C2: duplicate guard.  A nonempty field mapped to a property already
present in the claim set of the entity is reported as already existing
before any dispatch, hands no claim to the Claim Writer, and in general
every commit of a treat run concerns a property absent from the claim
set of the entity. -/
theorem duplicate_property_field_skipped (env : Env) (robot : HarvestRobot)
    (item : Item) (page : Page) (field value pid : String)
    (hf : (pyStrip field).data.isEmpty = false) (hv : (pyStrip value).data.isEmpty = false)
    (hmap : dictFind robot.fields (pyStrip field) = some pid)
    (hdup : item.claims.contains pid = true) :
    processField env robot item page field value = FieldOutcome.alreadyExists pid ∧
    fieldClaim (processField env robot item page field value) = none ∧
    ∀ ws page2, ∀ c ∈ treatCommits env robot ws page2 item,
      item.claims.contains c.pid = false := by
  have h1 : processField env robot item page field value = FieldOutcome.alreadyExists pid := by
    simp [processField, hf, hv, hmap, hdup]
    exact List.mem_of_elem_eq_true hdup
  refine ⟨h1, by rw [h1]; simp [fieldClaim], ?_⟩
  intro ws page2 c hc
  simp only [treatCommits] at hc
  obtain ⟨pv, hpv, rfl⟩ := List.mem_map.1 hc
  simpa using writtenClaims_pid_not_claimed env robot ws page2 item pv hpv

/-- Witness for C2 at a concrete field. -/
theorem c2_witness :
    processField envW ⟨true, "T", ["T"], [("a", "P5")]⟩ ⟨"Q9", ["P5"]⟩ pageW "a" "v" =
      FieldOutcome.alreadyExists "P5" := by
  exact (duplicate_property_field_skipped envW ⟨true, "T", ["T"], [("a", "P5")]⟩
    ⟨"Q9", ["P5"]⟩ pageW "a" "v" "P5" (by decide) (by decide) (by decide) (by decide)).1

theorem takeWhile_append_all (p : Char → Bool) (l1 l2 : List Char)
    (h : ∀ c ∈ l1, p c = true) :
    (l1 ++ l2).takeWhile p = l1 ++ l2.takeWhile p := by
  induction l1 with
  | nil => simp
  | cons c l ih =>
    have hc : p c = true := h c (List.mem_cons_self c l)
    simp only [List.cons_append, List.takeWhile_cons_of_pos hc]
    rw [ih (fun d hd => h d (List.mem_cons_of_mem c hd))]

theorem dropWhile_append_all (p : Char → Bool) (l1 l2 : List Char)
    (h : ∀ c ∈ l1, p c = true) :
    (l1 ++ l2).dropWhile p = l2.dropWhile p := by
  induction l1 with
  | nil => simp
  | cons c l ih =>
    have hc : p c = true := h c (List.mem_cons_self c l)
    simp only [List.cons_append, List.dropWhile_cons_of_pos hc]
    exact ih (fun d hd => h d (List.mem_cons_of_mem c hd))

theorem tryLinkMatch_cons_ne (c : Char) (l : List Char) (h : (c == '[') = false) :
    tryLinkMatch (c :: l) = none := by
  cases l with
  | nil => rfl
  | cons d l2 => simp [tryLinkMatch, h]

theorem tryLinkMatch_at_link (target post : List Char)
    (h : ∀ c ∈ target, goodTitleChar c = true) :
    tryLinkMatch ('[' :: '[' :: (target ++ ']' :: ']' :: post)) = some target := by
  have h1 : (target ++ ']' :: ']' :: post).takeWhile goodTitleChar = target := by
    rw [takeWhile_append_all goodTitleChar target _ h]
    simp [List.takeWhile_cons, goodTitleChar, badTitleChar]
  have h2 : (target ++ ']' :: ']' :: post).dropWhile goodTitleChar = ']' :: ']' :: post := by
    rw [dropWhile_append_all goodTitleChar target _ h]
    simp [List.dropWhile_cons, goodTitleChar, badTitleChar]
  simp [tryLinkMatch, h1, h2]

theorem linkSearchAux_append (pre rest : List Char)
    (h : ∀ c ∈ pre, (c == '[') = false) :
    linkSearchAux (pre ++ rest) = linkSearchAux rest := by
  induction pre with
  | nil => rfl
  | cons c l ih =>
    have hc := h c (List.mem_cons_self c l)
    rw [List.cons_append]
    show (match tryLinkMatch (c :: (l ++ rest)) with
      | some t => some t
      | none => linkSearchAux (l ++ rest)) = linkSearchAux rest
    rw [tryLinkMatch_cons_ne c (l ++ rest) hc]
    exact ih (fun d hd => h d (List.mem_cons_of_mem c hd))

theorem string_mk_data (s : String) : String.mk s.data = s := rfl

theorem linkRegexSearch_embedded (pre target post : String)
    (hpre : ∀ c ∈ pre.data, (c == '[') = false)
    (ht : ∀ c ∈ target.data, goodTitleChar c = true) :
    linkRegexSearch (pre ++ "[[" ++ target ++ "]]" ++ post) = some target := by
  have hdata : (pre ++ "[[" ++ target ++ "]]" ++ post).data
      = pre.data ++ ('[' :: '[' :: (target.data ++ ']' :: ']' :: post.data)) := by
    simp [String.data_append]
  rw [linkRegexSearch, hdata, linkSearchAux_append pre.data _ hpre]
  have : linkSearchAux ('[' :: '[' :: (target.data ++ ']' :: ']' :: post.data))
      = some target.data := by
    simp only [linkSearchAux, tryLinkMatch_at_link target.data post.data ht]
  rw [this]
  simp [string_mk_data]

/-- C3: entity-reference link extraction.  The extracted link text is the
first link target when the search succeeds and the whole value otherwise;
a value made of literal text with no bracket, a bracketed target, and an
arbitrary remainder always yields that target; and the entity-reference
dispatch branch resolves exactly the extracted link text. -/
theorem entity_reference_link_extraction :
    (∀ v t, linkRegexSearch v = some t → extractLinkText v = t) ∧
    (∀ v, linkRegexSearch v = none → extractLinkText v = v) ∧
    (∀ pre target post : String,
      (∀ c ∈ pre.data, c ≠ '[') → (∀ c ∈ target.data, goodTitleChar c = true) →
      linkRegexSearch (pre ++ "[[" ++ target ++ "]]" ++ post) = some target ∧
      extractLinkText (pre ++ "[[" ++ target ++ "]]" ++ post) = target) ∧
    (∀ env item page pid v, env.claimType pid = "wikibase-item" →
      parseValue env item page pid v =
        match templateLinkTarget env item (extractLinkText v) with
        | none => ParseOutcome.skipLinkTarget
        | some lid => ParseOutcome.written (ClaimValue.entity lid)) := by
  refine ⟨?_, ?_, ?_, ?_⟩
  · intro v t h
    rw [extractLinkText, h]
  · intro v h
    rw [extractLinkText, h]
  · intro pre target post hpre ht
    have hpre2 : ∀ c ∈ pre.data, (c == '[') = false := by
      intro c hc
      simpa using hpre c hc
    have h := linkRegexSearch_embedded pre target post hpre2 ht
    exact ⟨h, by rw [extractLinkText, h]⟩
  · intro env item page pid v h
    simp [parseValue, h]

/-- Witness for C3 at concrete values. -/
theorem c3_witness :
    linkRegexSearch ("x " ++ "[[" ++ "Target" ++ "]]" ++ " y") = some "Target" ∧
    extractLinkText ("x " ++ "[[" ++ "Target" ++ "]]" ++ " y") = "Target" := by
  exact entity_reference_link_extraction.2.2.1 "x " "Target" " y"
    (by decide) (by decide)

/-- C4: self-link guard.  When the entity lookup of the resolved final
page returns the identifier of the entity being edited, the
entity-reference field is skipped and no claim is created, whatever the
existence checks say. -/
theorem self_link_field_skipped (env : Env) (robot : HarvestRobot)
    (item : Item) (page : Page) (field value pid : String)
    (hf : (pyStrip field).data.isEmpty = false) (hv : (pyStrip value).data.isEmpty = false)
    (hmap : dictFind robot.fields (pyStrip field) = some pid)
    (hnew : item.claims.contains pid = false)
    (hdt : env.claimType pid = "wikibase-item")
    (hself : env.itemFromPage (resolveFinal env (extractLinkText (pyStrip value)))
      = some item.title) :
    processField env robot item page field value
      = FieldOutcome.processed pid ParseOutcome.skipLinkTarget ∧
    fieldClaim (processField env robot item page field value) = none := by
  have htgt : templateLinkTarget env item (extractLinkText (pyStrip value)) = none := by
    rw [templateLinkTarget]
    cases hpe : env.pageExists (extractLinkText (pyStrip value)) with
    | false => rfl
    | true =>
      rw [hself]
      simp only [Bool.not_true, Bool.not_eq_true]
      cases hex : env.itemExists item.title with
      | false => rfl
      | true => simp
  have h1 : processField env robot item page field value
      = FieldOutcome.processed pid ParseOutcome.skipLinkTarget := by
    simp only [processField, hf, hv, Bool.or_self, Bool.false_eq_true, if_false, hmap]
    rw [if_neg (by rw [hnew]; simp)]
    rw [parseValue]
    simp only [hdt, BEq.refl, if_true, htgt]
  exact ⟨h1, by rw [h1]; rfl⟩

/-- Witness for C4 at a concrete field whose value resolves back to the
entity being edited. -/
theorem c4_witness :
    processField envW ⟨true, "T", ["T"], [("a", "P1")]⟩ ⟨"Q1", []⟩ pageW "a" "Selfpage"
      = FieldOutcome.processed "P1" ParseOutcome.skipLinkTarget := by
  exact (self_link_field_skipped envW ⟨true, "T", ["T"], [("a", "P1")]⟩ ⟨"Q1", []⟩ pageW
    "a" "Selfpage" "P1" (by decide) (by decide) (by decide) (by decide) (by decide)
    (by decide)).1

/-- C5: URL parsing.  A field of url kind writes the URL substring of
the first external-link match and is skipped when no match exists; the
bracketed example yields its URL payload, a bare domain string yields a
skip, and a skip hands nothing to the Claim Writer. -/
theorem url_field_requires_link_markup (env : Env) (item : Item) (page : Page)
    (pid : String) (hdt : env.claimType pid = "url") :
    (∀ value, parseValue env item page pid value =
      match linkRSearch value with
      | none => ParseOutcome.skipNoUrl
      | some u => ParseOutcome.written (ClaimValue.urlV u)) ∧
    linkRSearch "[http://example.org/x label]" = some "http://example.org/x" ∧
    linkRSearch "example.org" = none ∧
    fieldClaim (FieldOutcome.processed pid ParseOutcome.skipNoUrl) = none := by
  refine ⟨?_, by decide, by decide, rfl⟩
  intro value
  simp [parseValue, hdt]

/-- Witness for C5 at the two concrete values of the claim. -/
theorem c5_witness :
    parseValue envW ⟨"Q1", []⟩ pageW "P2" "example.org" = ParseOutcome.skipNoUrl ∧
    parseValue envW ⟨"Q1", []⟩ pageW "P2" "[http://example.org/x label]"
      = ParseOutcome.written (ClaimValue.urlV "http://example.org/x") := by
  have h := url_field_requires_link_markup envW ⟨"Q1", []⟩ pageW "P2" (by decide)
  constructor
  · rw [h.1 "example.org", h.2.2.1]
  · rw [h.1 "[http://example.org/x label]", h.2.1]

/-- C6: media-reference resolution.  A field of media kind resolves the
value on the fixed commons repository, follows one file redirect hop,
skips when the final file does not exist, and otherwise writes the file
reference itself as the payload; and the dispatch is independent of the
source page, so the written claims of a treat run do not depend on the
site of the page. -/
theorem media_field_targets_commons (env : Env) (item : Item) (page : Page)
    (pid : String) (hdt : env.claimType pid = "commonsMedia") :
    (∀ value, parseValue env item page pid value =
      (let final :=
        match env.fileRedirect "commons" value with
        | some t => t
        | none => value
       if env.fileExists "commons" final then ParseOutcome.written (ClaimValue.media final)
       else ParseOutcome.skipFileMissing)) ∧
    (∀ value page2, parseValue env item page pid value = parseValue env item page2 pid value) ∧
    (∀ robot ws s1 s2 title tmpls it,
      writtenClaims (treat env robot ws ⟨s1, title, tmpls⟩ it)
        = writtenClaims (treat env robot ws ⟨s2, title, tmpls⟩ it)) := by
  refine ⟨?_, fun value page2 => rfl, fun robot ws s1 s2 title tmpls it => rfl⟩
  intro value
  simp [parseValue, hdt]

/-- Witness for C6 at a concrete file value. -/
theorem c6_witness :
    parseValue envW ⟨"Q1", []⟩ pageW "P3" "File.jpg"
      = ParseOutcome.written (ClaimValue.media "File.jpg") := by
  have h := media_field_targets_commons envW ⟨"Q1", []⟩ pageW "P3" (by decide)
  rw [h.1 "File.jpg"]
  decide

/-- C7: unsupported value kinds.  A property whose declared kind lies
outside the supported set is skipped unconditionally for every value,
and the skip hands nothing to the Claim Writer. -/
theorem unsupported_datatype_skipped (env : Env) (item : Item) (page : Page)
    (pid : String)
    (h1 : env.claimType pid ≠ "wikibase-item") (h2 : env.claimType pid ≠ "string")
    (h3 : env.claimType pid ≠ "external-id") (h4 : env.claimType pid ≠ "url")
    (h5 : env.claimType pid ≠ "commonsMedia") :
    ∀ value, parseValue env item page pid value
        = ParseOutcome.skipUnsupported (env.claimType pid) ∧
      fieldClaim (FieldOutcome.processed pid (parseValue env item page pid value)) = none := by
  intro value
  have e1 := beq_eq_false_iff_ne.2 h1
  have e2 := beq_eq_false_iff_ne.2 h2
  have e3 := beq_eq_false_iff_ne.2 h3
  have e4 := beq_eq_false_iff_ne.2 h4
  have e5 := beq_eq_false_iff_ne.2 h5
  have hmain : parseValue env item page pid value
      = ParseOutcome.skipUnsupported (env.claimType pid) := by
    simp [parseValue, e1, e2, e3, e4, e5]
  exact ⟨hmain, by rw [hmain]; simp [fieldClaim]⟩

/-- Witness for C7 at a concrete property of time kind. -/
theorem c7_witness :
    parseValue envW ⟨"Q1", []⟩ pageW "P4" "anything"
      = ParseOutcome.skipUnsupported "time" := by
  have h := unsupported_datatype_skipped envW ⟨"Q1", []⟩ pageW "P4"
    (by decide) (by decide) (by decide) (by decide) (by decide) "anything"
  rw [h.1]
  decide

theorem pairUp_getElem : (args : List String) → (i : Nat) →
    (pairUp args)[i]? =
      (match args[2 * i]?, args[2 * i + 1]? with
       | some a, some b => some (a, b)
       | _, _ => none)
  | [], i => by simp [pairUp]
  | [a], i => by
    cases i with
    | zero => simp [pairUp]
    | succ n =>
      have e1 : 2 * (n + 1) = 2 * n + 1 + 1 := by omega
      have e2 : 2 * (n + 1) + 1 = 2 * n + 1 + 1 + 1 := by omega
      simp [pairUp, e1, e2, List.getElem?_cons_succ]
  | a :: b :: rest, 0 => by simp [pairUp]
  | a :: b :: rest, (i + 1) => by
    have ih := pairUp_getElem rest i
    have e1 : 2 * (i + 1) = 2 * i + 1 + 1 := by omega
    have e2 : 2 * (i + 1) + 1 = 2 * i + 1 + 1 + 1 := by omega
    simp only [pairUp, List.getElem?_cons_succ, e1, e2]
    exact ih

/-- C8: odd field-count configuration is fatal.  With a template
configured, an odd field argument list reaches the fatal ValueError and
never the run constructor that builds the generator; an even list
reaches the run constructor carrying the pairing of the list, whose
entry at every index is the consecutive pair of arguments. -/
theorem odd_field_arguments_fatal :
    (∀ t args, t.data.isEmpty = false → args.length % 2 = 1 →
      mainModel t args = MainOutcome.fatalOddFieldCount) ∧
    (∀ t args, t.data.isEmpty = false → args.length % 2 = 0 →
      mainModel t args = MainOutcome.run (pairUp args)) ∧
    (∀ args i, (pairUp args)[i]? =
      (match args[2 * i]?, args[2 * i + 1]? with
       | some a, some b => some (a, b)
       | _, _ => none)) := by
  refine ⟨?_, ?_, fun args i => pairUp_getElem args i⟩
  · intro t args ht hodd
    simp [mainModel, ht, hodd]
  · intro t args ht heven
    simp [mainModel, ht, heven]

/-- Witness for C8 at concrete argument lists. -/
theorem c8_witness :
    mainModel "T" ["a"] = MainOutcome.fatalOddFieldCount ∧
    mainModel "T" ["a", "P1", "b", "P2"] = MainOutcome.run [("a", "P1"), ("b", "P2")] := by
  have h := odd_field_arguments_fatal
  refine ⟨h.1 "T" ["a"] (by decide) (by decide), ?_⟩
  rw [h.2.1 "T" ["a", "P1", "b", "P2"] (by decide) (by decide)]
  decide

/-- C9: two-tier cancellation.  The treat model reads the stop flag only
at its very start; a first signal merely sets the flag without aborting,
after which the current page body still completes and the next page
boundary raises the abort; a second signal while the flag is set aborts
immediately; entering a page with a clear flag proceeds; and completing
a page body never reads the flag. -/
theorem two_tier_cancellation :
    (∀ env robot page item, treat env robot true page item = TreatResult.interrupted) ∧
    (∀ s : RunState, s.aborted = false → s.willstop = false →
      runStep s RunEvent.sigint = { s with willstop := true }) ∧
    (∀ s : RunState, s.aborted = false → s.willstop = false → s.inPage = true →
      (runStep (runStep s RunEvent.sigint) RunEvent.endPage).aborted = false ∧
      (runStep (runStep s RunEvent.sigint) RunEvent.endPage).completedPages
        = s.completedPages + 1 ∧
      (runStep (runStep (runStep s RunEvent.sigint) RunEvent.endPage)
        RunEvent.beginPage).aborted = true) ∧
    (∀ s : RunState, s.aborted = false → s.willstop = true →
      runStep s RunEvent.sigint = { s with aborted := true }) ∧
    (∀ s : RunState, s.aborted = false → s.willstop = false →
      runStep s RunEvent.beginPage = { s with inPage := true }) ∧
    (∀ s : RunState, ∀ w : Bool,
      runStep { s with willstop := w } RunEvent.endPage
        = { runStep s RunEvent.endPage with willstop := w }) := by
  refine ⟨fun env robot page item => rfl, ?_, ?_, ?_, ?_, ?_⟩
  · intro s h1 h2
    simp [runStep, h1, h2]
  · intro s h1 h2 h3
    obtain ⟨w, a, ip, n⟩ := s
    simp only at h1 h2 h3
    subst h1; subst h2; subst h3
    exact ⟨rfl, rfl, rfl⟩
  · intro s h1 h2
    simp [runStep, h1, h2]
  · intro s h1 h2
    simp [runStep, h1, h2]
  · intro s w
    obtain ⟨ws0, a, ip, n⟩ := s
    cases a <;> cases ip <;> simp [runStep]

/-- Witness for C9 at a concrete mid-page state. -/
theorem c9_witness :
    (runStep (runStep ⟨false, false, true, 0⟩ RunEvent.sigint) RunEvent.endPage).aborted
      = false ∧
    (runStep (runStep ⟨false, false, true, 0⟩ RunEvent.sigint)
      RunEvent.endPage).completedPages = 1 ∧
    (runStep (runStep (runStep ⟨false, false, true, 0⟩ RunEvent.sigint) RunEvent.endPage)
      RunEvent.beginPage).aborted = true := by
  exact two_tier_cancellation.2.2.1 ⟨false, false, true, 0⟩ rfl rfl rfl

/-- C10: forced non-interactive mode.  Every constructed HarvestRobot
carries the always option as true, and every commit a treat run hands to
the Claim Writer carries that option, so the writer issues no per-edit
confirmation prompt. -/
theorem always_option_forced_no_prompt :
    (∀ env t fields, (mkHarvestRobot env t fields).optAlways = true) ∧
    (∀ env t fields ws page item,
      ∀ c ∈ treatCommits env (mkHarvestRobot env t fields) ws page item,
        c.always = true ∧ writerPrompts c.always = false) := by
  refine ⟨fun env t fields => rfl, ?_⟩
  intro env t fields ws page item c hc
  simp only [treatCommits] at hc
  obtain ⟨pv, hpv, rfl⟩ := List.mem_map.1 hc
  exact ⟨rfl, rfl⟩

/-- Witness for C10 at a concrete run producing one commit. -/
theorem c10_witness :
    (mkHarvestRobot envW "T" [("f", "P9")]).optAlways = true ∧
    (Commit.mk "P9" (ClaimValue.plainStr "v") "en" true).always = true ∧
    writerPrompts (Commit.mk "P9" (ClaimValue.plainStr "v") "en" true).always = false := by
  have h := always_option_forced_no_prompt
  refine ⟨h.1 envW "T" [("f", "P9")], ?_, ?_⟩
  · exact (h.2 envW "T" [("f", "P9")] false pageT ⟨"Q1", []⟩
      (Commit.mk "P9" (ClaimValue.plainStr "v") "en" true) (by decide)).1
  · exact (h.2 envW "T" [("f", "P9")] false pageT ⟨"Q1", []⟩
      (Commit.mk "P9" (ClaimValue.plainStr "v") "en" true) (by decide)).2

end HarvestTemplate
